import Mathlib

/-!
Verification development for the tg-bot repository (src/index.ts and the
AI service module).  The definitions below are a shallow embedding of the
TypeScript source: JavaScript values appearing in provider responses are
modelled by the `Json` inductive, JS truthiness by `jsTruthy`, property
access by `getField` (returning `none` for `undefined`), and the
network by an oracle function mapping each (model, endpoint) candidate to
a fetch outcome.  Stateful code (the per-user conversation history map)
is modelled by explicit store passing.
-/

namespace TgBot

/-- JSON values, as produced by `JSON.parse` on a provider response body. -/
inductive Json where
  | null
  | bool (b : Bool)
  | num (n : Int)
  | str (s : String)
  | arr (elems : List Json)
  | obj (fields : List (String × Json))

/-- JavaScript truthiness of a JSON value (`!!v`). -/
def jsTruthy : Json → Bool
  | Json.null => false
  | Json.bool b => b
  | Json.num n => n != 0
  | Json.str s => s != ""
  | Json.arr _ => true
  | Json.obj _ => true

/-- JavaScript property access `v.key`: `none` models `undefined`
(missing key, or access on a primitive / array, which have none of the
field names the source ever reads). -/
def getField : Json → String → Option Json
  | Json.obj fields, key => fields.lookup key
  | _, _ => none

/-- Truthiness of a possibly-`undefined` JS value. -/
def optTruthy : Option Json → Bool
  | some j => jsTruthy j
  | none => false

/-- JS nullish test (`undefined` or `null`), used by the `??` operator. -/
def nullish : Option Json → Bool
  | none => true
  | some Json.null => true
  | some _ => false

/-- JS nullish coalescing `a ?? b`. -/
def coalesce (a b : Option Json) : Option Json :=
  if nullish a then b else a

/-- The value is the JS `null` literal. -/
def isNull : Json → Bool
  | Json.null => true
  | _ => false

/-- Outcome of `extractGeneratedText`: the function can return a value,
return `null`, or throw a `TypeError` (property access on `null`). -/
inductive ExtractOut where
  | thrown
  | found (v : Json)
  | notFound

/-- `if (choice.text) return choice.text` — fallback inside the
chat-completion choices block. -/
def choiceTextFallback (choice : Json) : Option ExtractOut :=
  match getField choice "text" with
  | some t => if jsTruthy t then some (ExtractOut.found t) else none
  | none => none

/-- The chat-completion block of `extractGeneratedText`:
`if (obj.choices && Array.isArray(obj.choices) && obj.choices.length > 0)`,
then `choice.message && choice.message.content`, then `choice.text`.
Accessing `choice.message` throws when `choices[0]` is `null`.
`none` means the block did not return and control falls through. -/
def extractFromChoicesBlock (data : Json) : Option ExtractOut :=
  match getField data "choices" with
  | some (Json.arr (choice :: _)) =>
      if isNull choice then
        some ExtractOut.thrown
      else
        match getField choice "message" with
        | some m =>
            if jsTruthy m then
              match getField m "content" with
              | some c =>
                  if jsTruthy c then some (ExtractOut.found c)
                  else choiceTextFallback choice
              | none => choiceTextFallback choice
            else choiceTextFallback choice
        | none => choiceTextFallback choice
  | _ => none

/-- `if (obj.name) return obj.name` for the legacy single-object fields
`generated_text` / `output_text` / `text`. -/
def extractObjField (data : Json) (name : String) : Option ExtractOut :=
  match getField data name with
  | some v => if jsTruthy v then some (ExtractOut.found v) else none
  | none => none

/-- The `Array.isArray(data)` branch of `extractGeneratedText`:
`first` falsy returns null; a string is returned directly; for an object
the candidate is `generated_text ?? output_text ?? text ?? content` and is
returned only when it is a string (possibly empty: `??` is nullish, not
truthy). -/
def extractFromArr : List Json → ExtractOut
  | [] => ExtractOut.notFound
  | first :: _ =>
      if jsTruthy first = false then ExtractOut.notFound
      else
        match first with
        | Json.str s => ExtractOut.found (Json.str s)
        | Json.obj _ =>
            (match coalesce (getField first "generated_text")
                (coalesce (getField first "output_text")
                  (coalesce (getField first "text") (getField first "content"))) with
             | some (Json.str s) => ExtractOut.found (Json.str s)
             | _ => ExtractOut.notFound)
        | Json.arr _ =>
            (match coalesce (getField first "generated_text")
                (coalesce (getField first "output_text")
                  (coalesce (getField first "text") (getField first "content"))) with
             | some (Json.str s) => ExtractOut.found (Json.str s)
             | _ => ExtractOut.notFound)
        | _ => ExtractOut.notFound

/-- `extractGeneratedText(data)` from the AI service module.  The object
branch (`typeof data === "object" && data !== null`) is expressed with
`getField`, which returns `none` on arrays and primitives, so running it
unconditionally is equivalent to the guarded JS code; the array and bare
string branches follow. -/
def extractGeneratedText (data : Json) : ExtractOut :=
  if jsTruthy data = false then ExtractOut.notFound
  else
    match extractFromChoicesBlock data with
    | some r => r
    | none =>
    match extractObjField data "generated_text" with
    | some r => r
    | none =>
    match extractObjField data "output_text" with
    | some r => r
    | none =>
    match extractObjField data "text" with
    | some r => r
    | none =>
    match data with
    | Json.arr elems => extractFromArr elems
    | Json.str s => ExtractOut.found (Json.str s)
    | _ => ExtractOut.notFound

/-- Whitespace characters removed by JS `String.prototype.trim`
(the ASCII ones; the source strings are ordinary text). -/
def isJsWhitespace (c : Char) : Bool :=
  c = ' ' || c = '\t' || c = '\n' || c = '\r' || c = Char.ofNat 11 || c = Char.ofNat 12

/-- Drop leading whitespace. -/
def trimLeft (l : List Char) : List Char := l.dropWhile isJsWhitespace

/-- Drop leading and trailing whitespace. -/
def trimBoth (l : List Char) : List Char :=
  ((trimLeft l).reverse.dropWhile isJsWhitespace).reverse

/-- JS `s.trim()`. -/
def jsTrim (s : String) : String := String.mk (trimBoth s.toList)

/-- A string (as a char list) has no leading and no trailing whitespace. -/
def noEdgeWs (l : List Char) : Bool :=
  (match l.head? with
   | some c => !(isJsWhitespace c)
   | none => true) &&
  (match l.getLast? with
   | some c => !(isJsWhitespace c)
   | none => true)

/-- The message field of a result is present and trimmed. -/
def noEdgeWsOpt : Option String → Bool
  | some m => noEdgeWs m.toList
  | none => false

/-- The `errorType` literals of `AIResponseResult`. -/
inductive ErrorType where
  | insufficient_balance
  | api_error
  | unknown
  | provider_unavailable
deriving DecidableEq

/-- `AIResponseResult` from the AI service module.  `error` holds a JS
runtime value: the source types it as `string` but the classification
chain `errorData?.error || ...` can select a non-string JSON value. -/
structure AIResponseResult where
  success : Bool
  message : Option String
  error : Option Json
  errorType : Option ErrorType

/-- Chat roles. -/
inductive Role where
  | system
  | user
  | assistant
deriving DecidableEq

/-- `ChatMessage` (also the element type of a user's stored history). -/
structure ChatMessage where
  role : Role
  content : String
deriving DecidableEq

/-- `roleLabels` of `buildPrompt`. -/
def roleLabel : Role → String
  | Role.system => "System"
  | Role.user => "User"
  | Role.assistant => "Assistant"

/-- `buildPrompt(messages)`. -/
def buildPrompt (messages : List ChatMessage) : String :=
  String.intercalate "\n"
    (messages.map (fun m => roleLabel m.role ++ ": " ++ m.content)) ++ "\nAssistant:"

/-- Wire-level role of the chat-completion request body:
`m.role === "assistant" ? "assistant" : "user"` (note: system turns are
sent as `user`). -/
inductive HFRole where
  | user
  | assistant
deriving DecidableEq

/-- One message of the chat-completion request body. -/
structure WireMessage where
  role : HFRole
  content : String
deriving DecidableEq

/-- The JSON body a candidate request carries (modulo the fixed sampling
parameters, identical across candidates). -/
inductive RequestBody where
  | chat (model : String) (messages : List WireMessage)
  | rawWithModel (model : String) (inputs : String)
  | rawPath (inputs : String)
deriving DecidableEq

/-- The three endpoint formats of the `endpoints` array. -/
inductive Endpoint where
  | routerV1
  | routerV2
  | routerV3
deriving DecidableEq

/-- `endpoint.url`, a fixed URL or one derived from the model id. -/
def endpointUrl (e : Endpoint) (model : String) : String :=
  match e with
  | Endpoint.routerV1 => "https://router.huggingface.co/v1/chat/completions"
  | Endpoint.routerV2 => "https://router.huggingface.co/hf-inference"
  | Endpoint.routerV3 => "https://router.huggingface.co/models/" ++ model

/-- Role mapping of the chat-completion body builder. -/
def mapWireRole (r : Role) : HFRole :=
  match r with
  | Role.assistant => HFRole.assistant
  | _ => HFRole.user

/-- `endpoint.body(model)`: the three body builders close over the
message list (endpoint 1) or the flattened prompt (endpoints 2 and 3). -/
def endpointBody (e : Endpoint) (model : String) (messages : List ChatMessage)
    (promptStr : String) : RequestBody :=
  match e with
  | Endpoint.routerV1 =>
      RequestBody.chat model
        (messages.map (fun m => { role := mapWireRole m.role, content := m.content }))
  | Endpoint.routerV2 => RequestBody.rawWithModel model promptStr
  | Endpoint.routerV3 => RequestBody.rawPath promptStr

/-- The `endpoints` array, in source order. -/
def endpointsList : List Endpoint :=
  [Endpoint.routerV1, Endpoint.routerV2, Endpoint.routerV3]

/-- `modelsToTry`: the configured model first, then the fixed fallbacks. -/
def modelsToTry (hfModel : String) : List String :=
  [hfModel,
   "meta-llama/Meta-Llama-3-8B-Instruct",
   "mistralai/Mistral-7B-Instruct-v0.2",
   "Qwen/Qwen2.5-7B-Instruct",
   "google/gemma-7b-it",
   "HuggingFaceH4/zephyr-7b-beta"]

/-- An HTTP response: status line, body text, and the result of
`JSON.parse` on the body (`none` when parsing throws).  The clone read in
the loop and the `response.json()` read after it see the same body. -/
structure HttpResp where
  status : Nat
  statusText : String
  bodyText : String
  bodyJson : Option Json

/-- Outcome of one `fetch`: a network-level exception (with its
`error.message`) or an HTTP response. -/
inductive FetchOutcome where
  | exn (message : String)
  | resp (r : HttpResp)

/-- One issued candidate request, as recorded by the traversal. -/
structure Attempt where
  model : String
  endpoint : Endpoint
  url : String
  body : RequestBody
  outcome : FetchOutcome

/-- The mutable locals of the traversal loop: `lastError` (its message),
`response` (the last response object) and `lastResponseText`. -/
structure LoopState where
  lastError : Option String
  response : Option HttpResp
  lastResponseText : String

/-- `response.ok`: status in [200, 300). -/
def isOkStatus (r : HttpResp) : Bool :=
  decide (200 ≤ r.status) && decide (r.status < 300)

/-- The attempt got a 2xx response. -/
def isOkAttempt (a : Attempt) : Bool :=
  match a.outcome with
  | FetchOutcome.resp r => isOkStatus r
  | FetchOutcome.exn _ => false

/-- `errorData?.error?.code === "model_not_supported"` on the parsed
response body (parse failure is ignored and counts as no match). -/
def isModelNotSupported (r : HttpResp) : Bool :=
  match r.bodyJson with
  | some j =>
      (match getField j "error" with
       | some e =>
           (match getField e "code" with
            | some (Json.str s) => s == "model_not_supported"
            | _ => false)
       | none => false)
  | none => false

/-- JS `s.substring(0, n)`. -/
def jsSubstr (s : String) (n : Nat) : String := String.mk (s.toList.take n)

/-- What the status checks inside the loop decide for one response:
break the whole matrix (2xx), break to the next model (400 with
`model_not_supported`), or continue, possibly recording a last error. -/
inductive CandAction where
  | stopAll
  | nextModel
  | next (newLastError : Option String)

/-- The chain of status checks of the loop body, in source order. -/
def classifyCandidate (r : HttpResp) : CandAction :=
  if isOkStatus r then CandAction.stopAll
  else if r.status = 503 then CandAction.next none
  else if r.status = 410 then CandAction.next none
  else if r.status = 404 then
    CandAction.next (some ("404 Not Found: " ++ jsSubstr r.bodyText 200))
  else if r.status = 400 && isModelNotSupported r then CandAction.nextModel
  else
    CandAction.next (some ("Status " ++ toString r.status ++ ": " ++ r.statusText
      ++ " - " ++ jsSubstr r.bodyText 200))

/-- How the inner (endpoint) loop ended for one model. -/
inductive InnerExit where
  | foundOk (r : HttpResp)
  | modelUnsupported
  | exhausted

/-- The record of one issued request. -/
def mkAttempt (net : String → Endpoint → FetchOutcome)
    (messages : List ChatMessage) (promptStr : String) (model : String)
    (e : Endpoint) : Attempt :=
  { model := model, endpoint := e, url := endpointUrl e model,
    body := endpointBody e model messages promptStr, outcome := net model e }

/-- The inner endpoint loop for one model: issue one request per
endpoint format, update the loop state, and stop on `break outerLoop`
(2xx) or `break` (400 `model_not_supported`). -/
def tryModelEndpoints (net : String → Endpoint → FetchOutcome)
    (messages : List ChatMessage) (promptStr : String) (model : String) :
    List Endpoint → LoopState → LoopState × List Attempt × InnerExit
  | [], st => (st, [], InnerExit.exhausted)
  | e :: rest, st =>
      let att : Attempt := mkAttempt net messages promptStr model e
      match net model e with
      | FetchOutcome.exn msg =>
          let out := tryModelEndpoints net messages promptStr model rest
            { st with lastError := some msg }
          (out.1, att :: out.2.1, out.2.2)
      | FetchOutcome.resp r =>
          let st1 : LoopState :=
            { lastError := st.lastError, response := some r,
              lastResponseText := r.bodyText }
          match classifyCandidate r with
          | CandAction.stopAll => (st1, [att], InnerExit.foundOk r)
          | CandAction.nextModel => (st1, [att], InnerExit.modelUnsupported)
          | CandAction.next upd =>
              let st2 : LoopState :=
                { st1 with lastError :=
                    (match upd with
                     | some m => some m
                     | none => st1.lastError) }
              let out := tryModelEndpoints net messages promptStr model rest st2
              (out.1, att :: out.2.1, out.2.2)

/-- The outer model loop (`outerLoop`): model-major traversal, stopping
everything when the inner loop found a 2xx. -/
def tryModels (net : String → Endpoint → FetchOutcome)
    (messages : List ChatMessage) (promptStr : String) :
    List String → LoopState → LoopState × List Attempt × Option HttpResp
  | [], st => (st, [], none)
  | m :: rest, st =>
      let out := tryModelEndpoints net messages promptStr m endpointsList st
      match out.2.2 with
      | InnerExit.foundOk r => (out.1, out.2.1, some r)
      | _ =>
          let out2 := tryModels net messages promptStr rest out.1
          (out2.1, out.2.1 ++ out2.2.1, out2.2.2)

/-- The initial values of `lastError`, `response`, `lastResponseText`. -/
def initLoopState : LoopState :=
  { lastError := none, response := none, lastResponseText := "" }

/-- First truthy value of a `||` chain of possibly-`undefined` JS
values, with a final default. -/
def firstTruthy (xs : List (Option Json)) (dflt : Json) : Json :=
  match xs with
  | [] => dflt
  | x :: rest =>
      match x with
      | some v => if jsTruthy v then v else firstTruthy rest dflt
      | none => firstTruthy rest dflt

/-- The post-loop handling of a non-2xx last response: 503 becomes
`provider_unavailable` with the warming message; otherwise `api_error`
with `errorData?.error || errorData?.message || errorData?.error?.message
|| lastResponseText || generic`. -/
def classifyFailure (lastText : String) (r : HttpResp) : AIResponseResult :=
  if r.status = 503 then
    { success := false, message := none,
      error := some (Json.str "Модель прогревается. Попробуйте чуть позже."),
      errorType := some ErrorType.provider_unavailable }
  else
    let errorData : Option Json := r.bodyJson
    let errField : Option Json := errorData.bind (fun j => getField j "error")
    let msgField : Option Json := errorData.bind (fun j => getField j "message")
    let errMsgField : Option Json := errField.bind (fun j => getField j "message")
    { success := false, message := none,
      error := some (firstTruthy [errField, msgField, errMsgField,
        some (Json.str lastText)]
        (Json.str ("Ошибка Hugging Face API (" ++ toString r.status ++ " "
          ++ r.statusText ++ ")"))),
      errorType := some ErrorType.api_error }

/-- The `api_error` result for an empty extraction. -/
def emptyAnswerResult : AIResponseResult :=
  { success := false, message := none,
    error := some (Json.str "Пустой ответ от Hugging Face"),
    errorType := some ErrorType.api_error }

/-- The post-loop handling of the 2xx response: parse the body, extract
the generated text, reject empty extractions, and trim.  A `TypeError`
escaping extraction or `.trim()` on a non-string lands in the outer
catch, which yields `api_error` with the exception's message. -/
def processOk (r : HttpResp) : AIResponseResult :=
  match r.bodyJson with
  | none =>
      { success := false, message := none,
        error := some (Json.str "Не удалось распарсить ответ API"),
        errorType := some ErrorType.api_error }
  | some data =>
      match extractGeneratedText data with
      | ExtractOut.thrown =>
          { success := false, message := none,
            error := some (Json.str "TypeError"),
            errorType := some ErrorType.api_error }
      | ExtractOut.notFound => emptyAnswerResult
      | ExtractOut.found v =>
          if jsTruthy v = false then emptyAnswerResult
          else
            match v with
            | Json.str s =>
                { success := true, message := some (jsTrim s),
                  error := none, errorType := none }
            | _ =>
                { success := false, message := none,
                  error := some (Json.str "TypeError"),
                  errorType := some ErrorType.api_error }

/-- `callHuggingFace(messages)`: the guard on the credential, the matrix
traversal, the all-fetches-threw path (`throw lastError` caught by the
outer catch), and the post-loop classification.  Returns the result
together with the list of issued requests. -/
def callHuggingFace (hasKey : Bool) (net : String → Endpoint → FetchOutcome)
    (hfModel : String) (messages : List ChatMessage) :
    AIResponseResult × List Attempt :=
  if hasKey = false then
    ({ success := false, message := none,
       error := some (Json.str "HF_API_KEY отсутствует"),
       errorType := some ErrorType.provider_unavailable }, [])
  else
    let promptStr := buildPrompt messages
    let out := tryModels net messages promptStr (modelsToTry hfModel) initLoopState
    match out.2.2 with
    | some r => (processOk r, out.2.1)
    | none =>
        match out.1.response with
        | none =>
            let m := match out.1.lastError with
              | some msg => msg
              | none => "Не удалось подключиться к API"
            ({ success := false, message := none,
               error := some (Json.str
                 (if m = "" then "Неизвестная ошибка Hugging Face" else m)),
               errorType := some ErrorType.api_error }, out.2.1)
        | some r => (classifyFailure out.1.lastResponseText r, out.2.1)

/-- `MAX_HISTORY`. -/
def MAX_HISTORY : Nat := 10

/-- JS `xs.slice(-n)`: the last `min n xs.length` elements of `xs`. -/
def lastN {α : Type} (n : Nat) (xs : List α) : List α :=
  (xs.reverse.take n).reverse

/-- Truthiness of the optional `response.message` string field. -/
def optStrTruthy : Option String → Bool
  | some s => s != ""
  | none => false

/-- The conversation store: user id to stored history
(`conversationHistory.get(userId) || []` makes a missing entry and an
empty one indistinguishable, so the map is a total function). -/
def Store : Type := Nat → List ChatMessage

/-- `conversationHistory.set(userId, history)`. -/
def updateStore (store : Store) (userId : Nat) (h : List ChatMessage) : Store :=
  fun u => if u = userId then h else store u

/-- The message list built by `getAIResponse`:
`[system] ++ history ++ [new user turn]`. -/
def builtMessages (systemPromptStr : String) (history : List ChatMessage)
    (userMessage : String) : List ChatMessage :=
  { role := Role.system, content := systemPromptStr }
    :: (history ++ [{ role := Role.user, content := userMessage }])

/-- `getAIResponse(userId, userMessage)`: returns `null` without
touching anything when no credential is configured; otherwise calls the
provider and, when `response.success && response.message`, appends the
two new turns and truncates the history with `slice(-MAX_HISTORY)`.
Returns the result, the updated store, and the issued requests. -/
def getAIResponse (hasKey : Bool) (net : String → Endpoint → FetchOutcome)
    (hfModel : String) (systemPromptStr : String) (store : Store)
    (userId : Nat) (userMessage : String) :
    Option AIResponseResult × Store × List Attempt :=
  if hasKey = false then
    (none, store, [])
  else
    let history := store userId
    let messages := builtMessages systemPromptStr history userMessage
    let response := (callHuggingFace hasKey net hfModel messages).1
    let atts := (callHuggingFace hasKey net hfModel messages).2
    if response.success && optStrTruthy response.message then
      let h1 := history ++
        [{ role := Role.user, content := userMessage },
         { role := Role.assistant, content := response.message.getD "" }]
      let h2 := if MAX_HISTORY < h1.length then lastN MAX_HISTORY h1 else h1
      (some response, updateStore store userId h2, atts)
    else
      (some response, store, atts)

/-- `clearUserHistory(userId)` (`Map.delete`; equal to an empty entry
under the `get || []` read). -/
def clearUserHistory (store : Store) (userId : Nat) : Store :=
  fun u => if u = userId then [] else store u

/-! Spec-side definitions, used to state the claims. -/

/-- The history update rule as the spec states it: failed or disabled
calls leave the store untouched; a success whose message is truthy
appends the user and assistant turns and keeps the most recent
`MAX_HISTORY` of them. -/
def historySpecUpdate (store : Store) (userId : Nat) (userMessage : String) :
    Option AIResponseResult → Store
  | none => store
  | some r =>
      if r.success && optStrTruthy r.message then
        updateStore store userId
          (lastN MAX_HISTORY (store userId ++
            [{ role := Role.user, content := userMessage },
             { role := Role.assistant, content := r.message.getD "" }]))
      else store

/-- One `getAIResponse` call of a call sequence: its network behaviour,
configuration and arguments. -/
structure CallSpec where
  net : String → Endpoint → FetchOutcome
  hfModel : String
  sysContent : String
  userId : Nat
  userMessage : String

/-- Ghost log update for one call: on a success with a truthy message
the two turns are recorded, with no truncation. -/
def logStep (log : Store) (c : CallSpec) : Option AIResponseResult → Store
  | some r =>
      if r.success && optStrTruthy r.message then
        fun u => if u = c.userId then
          log u ++ [{ role := Role.user, content := c.userMessage },
                    { role := Role.assistant, content := r.message.getD "" }]
          else log u
      else log
  | none => log

/-- Run a sequence of `getAIResponse` calls, threading the store and, as
a ghost variable, the untruncated log of all turns appended per user. -/
def runCallsWithLog (hasKey : Bool) :
    List CallSpec → Store × Store → Store × Store
  | [], p => p
  | c :: rest, p =>
      let out := getAIResponse hasKey c.net c.hfModel c.sysContent p.1
        c.userId c.userMessage
      runCallsWithLog hasKey rest (out.2.1, logStep p.2 c out.1)

/-- What the spec says one candidate outcome decides: first 2xx stops
the whole traversal, a 400 `model_not_supported` abandons the remaining
endpoint formats of this model, anything else moves to the next
candidate. -/
inductive SpecStep where
  | stopAll
  | skipModel
  | keepGoing

/-- Spec-side classification of one candidate outcome. -/
def specClassify (oc : FetchOutcome) : SpecStep :=
  match oc with
  | FetchOutcome.exn _ => SpecStep.keepGoing
  | FetchOutcome.resp r =>
      if isOkStatus r then SpecStep.stopAll
      else if r.status = 400 && isModelNotSupported r then SpecStep.skipModel
      else SpecStep.keepGoing

/-- Spec-side scan of one model's endpoint formats, in order; the flag
reports whether the whole traversal must stop (a 2xx was found). -/
def specScanModel (net : String → Endpoint → FetchOutcome) (m : String) :
    List Endpoint → List (String × Endpoint) × Bool
  | [] => ([], false)
  | e :: rest =>
      match specClassify (net m e) with
      | SpecStep.stopAll => ([(m, e)], true)
      | SpecStep.skipModel => ([(m, e)], false)
      | SpecStep.keepGoing =>
          let out := specScanModel net m rest
          ((m, e) :: out.1, out.2)

/-- The candidate order the spec describes: model-major, every endpoint
format per model, remaining formats skipped on `model_not_supported`,
everything stopped at the first 2xx. -/
def specCandidateOrder (net : String → Endpoint → FetchOutcome) :
    List String → List Endpoint → List (String × Endpoint)
  | [], _ => []
  | m :: rest, eps =>
      let out := specScanModel net m eps
      if out.2 then out.1 else out.1 ++ specCandidateOrder net rest eps

/-- The failure classification the spec describes for an exhausted
matrix, as a function of the last observed HTTP response: 503 becomes
`provider_unavailable` with the warming message, anything else
`api_error` with the message drawn from the structured error field, the
structured message field, the raw body text, or the generic string. -/
def specFailure (r : HttpResp) : AIResponseResult :=
  if r.status = 503 then
    { success := false, message := none,
      error := some (Json.str "Модель прогревается. Попробуйте чуть позже."),
      errorType := some ErrorType.provider_unavailable }
  else
    { success := false, message := none,
      error := some (firstTruthy
        [r.bodyJson.bind (fun j => getField j "error"),
         r.bodyJson.bind (fun j => getField j "message"),
         some (Json.str r.bodyText)]
        (Json.str ("Ошибка Hugging Face API (" ++ toString r.status ++ " "
          ++ r.statusText ++ ")"))),
      errorType := some ErrorType.api_error }

/-- The last HTTP response observed in a list of attempts (network
exceptions do not overwrite the `response` variable). -/
def lastHttp : List Attempt → Option HttpResp
  | [] => none
  | a :: rest =>
      match lastHttp rest with
      | some r => some r
      | none =>
          match a.outcome with
          | FetchOutcome.resp r => some r
          | FetchOutcome.exn _ => none

/-- The inner loop exited with a 2xx. -/
def isFound : InnerExit → Bool
  | InnerExit.foundOk _ => true
  | _ => false

/-- The result is an `insufficient_balance` failure. -/
def isInsufficientBalance : Option AIResponseResult → Bool
  | some r =>
      (match r.errorType with
       | some ErrorType.insufficient_balance => true
       | _ => false)
  | none => false

/-- The error type is anything but `insufficient_balance`. -/
def etNotIB : Option ErrorType → Bool
  | some ErrorType.insufficient_balance => false
  | _ => true

/-! Equation lemmas for the traversal, for use in inductions. -/

theorem inner_nil (net : String → Endpoint → FetchOutcome) (msgs : List ChatMessage)
    (p m : String) (st : LoopState) :
    tryModelEndpoints net msgs p m [] st = (st, [], InnerExit.exhausted) := rfl

theorem inner_cons_exn (net : String → Endpoint → FetchOutcome) (msgs : List ChatMessage)
    (p m : String) (e : Endpoint) (rest : List Endpoint) (st : LoopState) (msg : String)
    (hne : net m e = FetchOutcome.exn msg) :
    tryModelEndpoints net msgs p m (e :: rest) st =
      ((tryModelEndpoints net msgs p m rest { st with lastError := some msg }).1,
       mkAttempt net msgs p m e ::
         (tryModelEndpoints net msgs p m rest { st with lastError := some msg }).2.1,
       (tryModelEndpoints net msgs p m rest { st with lastError := some msg }).2.2) := by
  simp only [tryModelEndpoints, hne]

theorem inner_cons_stop (net : String → Endpoint → FetchOutcome) (msgs : List ChatMessage)
    (p m : String) (e : Endpoint) (rest : List Endpoint) (st : LoopState) (r : HttpResp)
    (hne : net m e = FetchOutcome.resp r) (hcr : classifyCandidate r = CandAction.stopAll) :
    tryModelEndpoints net msgs p m (e :: rest) st =
      ({ lastError := st.lastError, response := some r, lastResponseText := r.bodyText },
       [mkAttempt net msgs p m e], InnerExit.foundOk r) := by
  simp only [tryModelEndpoints, hne, hcr]

theorem inner_cons_skip (net : String → Endpoint → FetchOutcome) (msgs : List ChatMessage)
    (p m : String) (e : Endpoint) (rest : List Endpoint) (st : LoopState) (r : HttpResp)
    (hne : net m e = FetchOutcome.resp r) (hcr : classifyCandidate r = CandAction.nextModel) :
    tryModelEndpoints net msgs p m (e :: rest) st =
      ({ lastError := st.lastError, response := some r, lastResponseText := r.bodyText },
       [mkAttempt net msgs p m e], InnerExit.modelUnsupported) := by
  simp only [tryModelEndpoints, hne, hcr]

theorem inner_cons_next (net : String → Endpoint → FetchOutcome) (msgs : List ChatMessage)
    (p m : String) (e : Endpoint) (rest : List Endpoint) (st : LoopState) (r : HttpResp)
    (upd : Option String)
    (hne : net m e = FetchOutcome.resp r) (hcr : classifyCandidate r = CandAction.next upd) :
    tryModelEndpoints net msgs p m (e :: rest) st =
      ((tryModelEndpoints net msgs p m rest
          { lastError := (match upd with | some w => some w | none => st.lastError),
            response := some r, lastResponseText := r.bodyText }).1,
       mkAttempt net msgs p m e ::
         (tryModelEndpoints net msgs p m rest
           { lastError := (match upd with | some w => some w | none => st.lastError),
             response := some r, lastResponseText := r.bodyText }).2.1,
       (tryModelEndpoints net msgs p m rest
         { lastError := (match upd with | some w => some w | none => st.lastError),
           response := some r, lastResponseText := r.bodyText }).2.2) := by
  cases upd <;> simp only [tryModelEndpoints, hne, hcr]

theorem outer_nil (net : String → Endpoint → FetchOutcome) (msgs : List ChatMessage)
    (p : String) (st : LoopState) :
    tryModels net msgs p [] st = (st, [], none) := rfl

theorem outer_cons_found (net : String → Endpoint → FetchOutcome) (msgs : List ChatMessage)
    (p m : String) (rest : List String) (st : LoopState) (r : HttpResp)
    (h : (tryModelEndpoints net msgs p m endpointsList st).2.2 = InnerExit.foundOk r) :
    tryModels net msgs p (m :: rest) st =
      ((tryModelEndpoints net msgs p m endpointsList st).1,
       (tryModelEndpoints net msgs p m endpointsList st).2.1, some r) := by
  simp only [tryModels, h]

theorem outer_cons_go (net : String → Endpoint → FetchOutcome) (msgs : List ChatMessage)
    (p m : String) (rest : List String) (st : LoopState)
    (h : isFound (tryModelEndpoints net msgs p m endpointsList st).2.2 = false) :
    tryModels net msgs p (m :: rest) st =
      ((tryModels net msgs p rest (tryModelEndpoints net msgs p m endpointsList st).1).1,
       (tryModelEndpoints net msgs p m endpointsList st).2.1 ++
         (tryModels net msgs p rest (tryModelEndpoints net msgs p m endpointsList st).1).2.1,
       (tryModels net msgs p rest (tryModelEndpoints net msgs p m endpointsList st).1).2.2) := by
  cases hx : (tryModelEndpoints net msgs p m endpointsList st).2.2 with
  | foundOk r => rw [hx] at h; simp [isFound] at h
  | modelUnsupported => simp only [tryModels, hx]
  | exhausted => simp only [tryModels, hx]

/-! List facts about `lastN`, splitting at a final element, and trimming. -/

theorem lastN_length_le {α : Type} (n : Nat) (xs : List α) :
    (lastN n xs).length ≤ n := by
  simp only [lastN, List.length_reverse, List.length_take]
  exact Nat.min_le_left _ _

theorem lastN_of_length_le {α : Type} (n : Nat) (xs : List α)
    (h : xs.length ≤ n) : lastN n xs = xs := by
  unfold lastN
  rw [List.take_of_length_le (by simpa using h), List.reverse_reverse]

theorem lastN_append_lastN {α : Type} (n : Nat) (xs ys : List α) :
    lastN n (lastN n xs ++ ys) = lastN n (xs ++ ys) := by
  unfold lastN
  simp only [List.reverse_append, List.reverse_reverse]
  congr 1
  rw [List.take_append_eq_append_take, List.take_append_eq_append_take, List.take_take]
  congr 2
  omega

theorem split_at_last {α : Type} :
    ∀ (pre front : List α) (l a : α) (post : List α),
      front ++ [l] = pre ++ a :: post →
      a ∈ front ∨ (a = l ∧ post = [] ∧ pre = front) := by
  intro pre
  induction pre with
  | nil =>
      intro front l a post h
      cases front with
      | nil =>
          simp only [List.nil_append] at h
          obtain ⟨rfl, rfl⟩ := List.cons.inj h
          exact Or.inr ⟨rfl, rfl, rfl⟩
      | cons f fs =>
          simp only [List.cons_append, List.nil_append] at h
          obtain ⟨rfl, _⟩ := List.cons.inj h
          exact Or.inl (List.mem_cons_self _ _)
  | cons q qs ih =>
      intro front l a post h
      cases front with
      | nil =>
          simp only [List.nil_append, List.cons_append] at h
          obtain ⟨rfl, h2⟩ := List.cons.inj h
          exact absurd h2.symm (by simp)
      | cons f fs =>
          simp only [List.cons_append] at h
          obtain ⟨rfl, h2⟩ := List.cons.inj h
          rcases ih fs l a post h2 with hmem | ⟨ha, hpost, hpre⟩
          · exact Or.inl (List.mem_cons_of_mem _ hmem)
          · exact Or.inr ⟨ha, hpost, by rw [hpre]⟩

theorem head?_dropWhile_not {α : Type} (q : α → Bool) :
    ∀ (l : List α) (c : α), (l.dropWhile q).head? = some c → q c = false := by
  intro l
  induction l with
  | nil => intro c h; simp [List.dropWhile] at h
  | cons x xs ih =>
      intro c h
      by_cases hx : q x = true
      · rw [List.dropWhile_cons_of_pos hx] at h
        exact ih c h
      · rw [List.dropWhile_cons_of_neg hx] at h
        simp only [List.head?_cons, Option.some.injEq] at h
        subst h
        exact Bool.not_eq_true _ ▸ (by simpa using hx)

theorem noEdgeWs_trimBoth (l : List Char) : noEdgeWs (trimBoth l) = true := by
  unfold trimBoth noEdgeWs
  rcases hz : (trimLeft l).reverse.dropWhile isJsWhitespace with _ | ⟨c, zs⟩
  · simp
  · rw [← hz]
    set z := (trimLeft l).reverse.dropWhile isJsWhitespace with hzdef
    have hznil : z ≠ [] := by rw [hz]; simp
    have hhead : ∀ d, z.head? = some d → isJsWhitespace d = false := by
      intro d hd
      exact head?_dropWhile_not isJsWhitespace _ d hd
    have hlast : ∀ d, z.getLast? = some d → isJsWhitespace d = false := by
      intro d hd
      obtain ⟨t, ht⟩ := List.dropWhile_suffix (l := (trimLeft l).reverse) isJsWhitespace
      rw [← hzdef] at ht
      have h1 : (trimLeft l).reverse.getLast? = some d := by
        rw [← ht, List.getLast?_append_of_ne_nil t hznil]; exact hd
      rw [List.getLast?_reverse] at h1
      exact head?_dropWhile_not isJsWhitespace l d h1
    rw [List.head?_reverse, List.getLast?_reverse]
    rcases h1 : z.getLast? with _ | d1 <;> rcases h2 : z.head? with _ | d2
    · simp
    · simp [hhead d2 h2]
    · simp [hlast d1 h1]
    · simp [hhead d2 h2, hlast d1 h1]

theorem toList_jsTrim (s : String) : (jsTrim s).toList = trimBoth s.toList := rfl

theorem noEdgeWs_jsTrim (s : String) : noEdgeWs (jsTrim s).toList = true := by
  rw [toList_jsTrim]; exact noEdgeWs_trimBoth s.toList

/-! Facts relating the status classification to `response.ok`. -/

theorem classify_ok (r : HttpResp) (h : isOkStatus r = true) :
    classifyCandidate r = CandAction.stopAll := by
  simp [classifyCandidate, h]

theorem classify_stop_ok (r : HttpResp)
    (hcr : classifyCandidate r = CandAction.stopAll) : isOkStatus r = true := by
  by_cases h : isOkStatus r = true
  · exact h
  · exfalso
    have hb : isOkStatus r = false := by simpa using h
    unfold classifyCandidate at hcr
    rw [hb] at hcr
    simp only [Bool.false_eq_true, if_false] at hcr
    repeat' split at hcr
    all_goals simp_all

theorem classify_skip_not_ok (r : HttpResp)
    (hcr : classifyCandidate r = CandAction.nextModel) : isOkStatus r = false := by
  by_cases h : isOkStatus r = true
  · rw [classify_ok r h] at hcr; exact absurd hcr (by simp)
  · simpa using h

theorem classify_next_not_ok (r : HttpResp) (upd : Option String)
    (hcr : classifyCandidate r = CandAction.next upd) : isOkStatus r = false := by
  by_cases h : isOkStatus r = true
  · rw [classify_ok r h] at hcr; exact absurd hcr (by simp)
  · simpa using h

/-! Every recorded attempt carries this model, the URL and body of its
endpoint format built from the call's message list, and the oracle's
outcome for its candidate. -/

theorem inner_atts_shape (net : String → Endpoint → FetchOutcome)
    (msgs : List ChatMessage) (p m : String) :
    ∀ (eps : List Endpoint) (st : LoopState),
      ∀ a ∈ (tryModelEndpoints net msgs p m eps st).2.1,
        a.model = m ∧ a.url = endpointUrl a.endpoint a.model
        ∧ a.body = endpointBody a.endpoint a.model msgs p
        ∧ a.outcome = net a.model a.endpoint := by
  intro eps
  induction eps with
  | nil => intro st a ha; rw [inner_nil] at ha; simp at ha
  | cons e rest ih =>
      intro st a ha
      cases hne : net m e with
      | exn msg =>
          rw [inner_cons_exn net msgs p m e rest st msg hne] at ha
          rcases List.mem_cons.mp ha with rfl | h
          · exact ⟨rfl, rfl, rfl, rfl⟩
          · exact ih _ a h
      | resp r =>
          rcases hcr : classifyCandidate r with _ | _ | upd
          · rw [inner_cons_stop net msgs p m e rest st r hne hcr] at ha
            rcases List.mem_singleton.mp ha with rfl
            exact ⟨rfl, rfl, rfl, rfl⟩
          · rw [inner_cons_skip net msgs p m e rest st r hne hcr] at ha
            rcases List.mem_singleton.mp ha with rfl
            exact ⟨rfl, rfl, rfl, rfl⟩
          · rw [inner_cons_next net msgs p m e rest st r upd hne hcr] at ha
            rcases List.mem_cons.mp ha with rfl | h
            · exact ⟨rfl, rfl, rfl, rfl⟩
            · exact ih _ a h

theorem outer_atts_shape (net : String → Endpoint → FetchOutcome)
    (msgs : List ChatMessage) (p : String) :
    ∀ (models : List String) (st : LoopState),
      ∀ a ∈ (tryModels net msgs p models st).2.1,
        a.url = endpointUrl a.endpoint a.model
        ∧ a.body = endpointBody a.endpoint a.model msgs p
        ∧ a.outcome = net a.model a.endpoint := by
  intro models
  induction models with
  | nil => intro st a ha; rw [outer_nil] at ha; simp at ha
  | cons m rest ih =>
      intro st a ha
      cases hx : (tryModelEndpoints net msgs p m endpointsList st).2.2 with
      | foundOk r =>
          rw [outer_cons_found net msgs p m rest st r hx] at ha
          have h := inner_atts_shape net msgs p m endpointsList st a ha
          exact ⟨h.2.1, h.2.2.1, h.2.2.2⟩
      | modelUnsupported =>
          rw [outer_cons_go net msgs p m rest st (by rw [hx]; rfl)] at ha
          rcases List.mem_append.mp ha with h | h
          · have h2 := inner_atts_shape net msgs p m endpointsList st a h
            exact ⟨h2.2.1, h2.2.2.1, h2.2.2.2⟩
          · exact ih _ a h
      | exhausted =>
          rw [outer_cons_go net msgs p m rest st (by rw [hx]; rfl)] at ha
          rcases List.mem_append.mp ha with h | h
          · have h2 := inner_atts_shape net msgs p m endpointsList st a h
            exact ⟨h2.2.1, h2.2.2.1, h2.2.2.2⟩
          · exact ih _ a h

/-! First-success structure of the traversal: when the loop does not
stop, every attempt was non-2xx; when it stops with `r`, the attempt
list is a block of non-2xx attempts followed by the single 2xx one. -/

theorem inner_not_found (net : String → Endpoint → FetchOutcome)
    (msgs : List ChatMessage) (p m : String) :
    ∀ (eps : List Endpoint) (st : LoopState),
      isFound (tryModelEndpoints net msgs p m eps st).2.2 = false →
      ∀ a ∈ (tryModelEndpoints net msgs p m eps st).2.1, isOkAttempt a = false := by
  intro eps
  induction eps with
  | nil => intro st _ a ha; rw [inner_nil] at ha; simp at ha
  | cons e rest ih =>
      intro st hnf a ha
      cases hne : net m e with
      | exn msg =>
          rw [inner_cons_exn net msgs p m e rest st msg hne] at ha hnf
          rcases List.mem_cons.mp ha with rfl | h
          · simp [isOkAttempt, mkAttempt, hne]
          · exact ih _ hnf a h
      | resp r =>
          rcases hcr : classifyCandidate r with _ | _ | upd
          · rw [inner_cons_stop net msgs p m e rest st r hne hcr] at hnf
            simp [isFound] at hnf
          · rw [inner_cons_skip net msgs p m e rest st r hne hcr] at ha
            rcases List.mem_singleton.mp ha with rfl
            simp [isOkAttempt, mkAttempt, hne, classify_skip_not_ok r hcr]
          · rw [inner_cons_next net msgs p m e rest st r upd hne hcr] at ha hnf
            rcases List.mem_cons.mp ha with rfl | h
            · simp [isOkAttempt, mkAttempt, hne, classify_next_not_ok r upd hcr]
            · exact ih _ hnf a h

theorem inner_found_split (net : String → Endpoint → FetchOutcome)
    (msgs : List ChatMessage) (p m : String) :
    ∀ (eps : List Endpoint) (st : LoopState) (r : HttpResp),
      (tryModelEndpoints net msgs p m eps st).2.2 = InnerExit.foundOk r →
      ∃ front a, (tryModelEndpoints net msgs p m eps st).2.1 = front ++ [a]
        ∧ (∀ b ∈ front, isOkAttempt b = false)
        ∧ a.outcome = FetchOutcome.resp r ∧ isOkStatus r = true := by
  intro eps
  induction eps with
  | nil => intro st r h; rw [inner_nil] at h; exact absurd h (by simp)
  | cons e rest ih =>
      intro st r h
      cases hne : net m e with
      | exn msg =>
          rw [inner_cons_exn net msgs p m e rest st msg hne] at h ⊢
          obtain ⟨front, a, heq, hfront, hout, hok⟩ := ih _ r h
          refine ⟨mkAttempt net msgs p m e :: front, a, by simp [heq], ?_, hout, hok⟩
          intro b hb
          rcases List.mem_cons.mp hb with rfl | hb
          · simp [isOkAttempt, mkAttempt, hne]
          · exact hfront b hb
      | resp r2 =>
          rcases hcr : classifyCandidate r2 with _ | _ | upd
          · rw [inner_cons_stop net msgs p m e rest st r2 hne hcr] at h ⊢
            have hr : r2 = r := by simpa using h
            exact ⟨[], mkAttempt net msgs p m e, by simp, by simp, hr ▸ hne,
              hr ▸ classify_stop_ok r2 hcr⟩
          · rw [inner_cons_skip net msgs p m e rest st r2 hne hcr] at h
            exact absurd h (by simp)
          · rw [inner_cons_next net msgs p m e rest st r2 upd hne hcr] at h ⊢
            obtain ⟨front, a, heq, hfront, hout, hok⟩ := ih _ r h
            refine ⟨mkAttempt net msgs p m e :: front, a, by simp [heq], ?_, hout, hok⟩
            intro b hb
            rcases List.mem_cons.mp hb with rfl | hb
            · simp [isOkAttempt, mkAttempt, hne, classify_next_not_ok r2 upd hcr]
            · exact hfront b hb

theorem outer_not_found (net : String → Endpoint → FetchOutcome)
    (msgs : List ChatMessage) (p : String) :
    ∀ (models : List String) (st : LoopState),
      (tryModels net msgs p models st).2.2 = none →
      ∀ a ∈ (tryModels net msgs p models st).2.1, isOkAttempt a = false := by
  intro models
  induction models with
  | nil => intro st _ a ha; rw [outer_nil] at ha; simp at ha
  | cons m rest ih =>
      intro st hnone a ha
      cases hx : (tryModelEndpoints net msgs p m endpointsList st).2.2 with
      | foundOk r =>
          rw [outer_cons_found net msgs p m rest st r hx] at hnone
          exact absurd hnone (by simp)
      | modelUnsupported =>
          rw [outer_cons_go net msgs p m rest st (by rw [hx]; rfl)] at ha hnone
          rcases List.mem_append.mp ha with h | h
          · exact inner_not_found net msgs p m endpointsList st (by rw [hx]; rfl) a h
          · exact ih _ hnone a h
      | exhausted =>
          rw [outer_cons_go net msgs p m rest st (by rw [hx]; rfl)] at ha hnone
          rcases List.mem_append.mp ha with h | h
          · exact inner_not_found net msgs p m endpointsList st (by rw [hx]; rfl) a h
          · exact ih _ hnone a h

theorem outer_found_split (net : String → Endpoint → FetchOutcome)
    (msgs : List ChatMessage) (p : String) :
    ∀ (models : List String) (st : LoopState) (r : HttpResp),
      (tryModels net msgs p models st).2.2 = some r →
      ∃ front a, (tryModels net msgs p models st).2.1 = front ++ [a]
        ∧ (∀ b ∈ front, isOkAttempt b = false)
        ∧ a.outcome = FetchOutcome.resp r ∧ isOkStatus r = true := by
  intro models
  induction models with
  | nil => intro st r h; rw [outer_nil] at h; exact absurd h (by simp)
  | cons m rest ih =>
      intro st r h
      cases hx : (tryModelEndpoints net msgs p m endpointsList st).2.2 with
      | foundOk r2 =>
          rw [outer_cons_found net msgs p m rest st r2 hx] at h ⊢
          have hr : r2 = r := by simpa using h
          exact hr ▸ inner_found_split net msgs p m endpointsList st r2 hx
      | modelUnsupported =>
          rw [outer_cons_go net msgs p m rest st (by rw [hx]; rfl)] at h ⊢
          obtain ⟨front, a, heq, hfront, hout, hok⟩ := ih _ r h
          refine ⟨(tryModelEndpoints net msgs p m endpointsList st).2.1 ++ front, a,
            by simp [heq], ?_, hout, hok⟩
          intro b hb
          rcases List.mem_append.mp hb with hb | hb
          · exact inner_not_found net msgs p m endpointsList st (by rw [hx]; rfl) b hb
          · exact hfront b hb
      | exhausted =>
          rw [outer_cons_go net msgs p m rest st (by rw [hx]; rfl)] at h ⊢
          obtain ⟨front, a, heq, hfront, hout, hok⟩ := ih _ r h
          refine ⟨(tryModelEndpoints net msgs p m endpointsList st).2.1 ++ front, a,
            by simp [heq], ?_, hout, hok⟩
          intro b hb
          rcases List.mem_append.mp hb with hb | hb
          · exact inner_not_found net msgs p m endpointsList st (by rw [hx]; rfl) b hb
          · exact hfront b hb

/-! The loop state tracks the last HTTP response of the trace. -/

/-- Overwrite an optional response by a later one, when there is one. -/
def mergeResp (old lh : Option HttpResp) : Option HttpResp :=
  match lh with
  | some r => some r
  | none => old

/-- Overwrite the last response text by a later response's body. -/
def mergeText (old : String) (lh : Option HttpResp) : String :=
  match lh with
  | some r => r.bodyText
  | none => old

theorem lastHttp_append (xs ys : List Attempt) :
    lastHttp (xs ++ ys) = mergeResp (lastHttp xs) (lastHttp ys) := by
  induction xs with
  | nil => simp only [List.nil_append]; cases lastHttp ys <;> rfl
  | cons a xs ih =>
      have h1 : lastHttp ((a :: xs) ++ ys)
          = (match lastHttp (xs ++ ys) with
             | some r => some r
             | none =>
                 match a.outcome with
                 | FetchOutcome.resp r => some r
                 | FetchOutcome.exn _ => none) := rfl
      have h2 : lastHttp (a :: xs)
          = (match lastHttp xs with
             | some r => some r
             | none =>
                 match a.outcome with
                 | FetchOutcome.resp r => some r
                 | FetchOutcome.exn _ => none) := rfl
      rw [h1, ih, h2]
      cases lastHttp ys <;> cases lastHttp xs <;> cases a.outcome <;> rfl

theorem inner_state_track (net : String → Endpoint → FetchOutcome)
    (msgs : List ChatMessage) (p m : String) :
    ∀ (eps : List Endpoint) (st : LoopState),
      (tryModelEndpoints net msgs p m eps st).1.response
          = mergeResp st.response (lastHttp (tryModelEndpoints net msgs p m eps st).2.1)
      ∧ (tryModelEndpoints net msgs p m eps st).1.lastResponseText
          = mergeText st.lastResponseText (lastHttp (tryModelEndpoints net msgs p m eps st).2.1) := by
  intro eps
  induction eps with
  | nil => intro st; rw [inner_nil]; exact ⟨rfl, rfl⟩
  | cons e rest ih =>
      intro st
      cases hne : net m e with
      | exn msg =>
          rw [inner_cons_exn net msgs p m e rest st msg hne]
          have hout : (mkAttempt net msgs p m e).outcome = FetchOutcome.exn msg := hne
          constructor
          · rw [(ih _).1]
            simp only [lastHttp, hout]
            cases lastHttp (tryModelEndpoints net msgs p m rest
              { st with lastError := some msg }).2.1 <;> rfl
          · rw [(ih _).2]
            simp only [lastHttp, hout]
            cases lastHttp (tryModelEndpoints net msgs p m rest
              { st with lastError := some msg }).2.1 <;> rfl
      | resp r =>
          have hout : (mkAttempt net msgs p m e).outcome = FetchOutcome.resp r := hne
          rcases hcr : classifyCandidate r with _ | _ | upd
          · rw [inner_cons_stop net msgs p m e rest st r hne hcr]
            constructor <;> simp [lastHttp, hout, mergeResp, mergeText]
          · rw [inner_cons_skip net msgs p m e rest st r hne hcr]
            constructor <;> simp [lastHttp, hout, mergeResp, mergeText]
          · rw [inner_cons_next net msgs p m e rest st r upd hne hcr]
            constructor
            · rw [(ih _).1]
              simp only [lastHttp, hout]
              cases lastHttp (tryModelEndpoints net msgs p m rest _).2.1 <;> rfl
            · rw [(ih _).2]
              simp only [lastHttp, hout]
              cases lastHttp (tryModelEndpoints net msgs p m rest _).2.1 <;> rfl

theorem outer_state_track (net : String → Endpoint → FetchOutcome)
    (msgs : List ChatMessage) (p : String) :
    ∀ (models : List String) (st : LoopState),
      (tryModels net msgs p models st).1.response
          = mergeResp st.response (lastHttp (tryModels net msgs p models st).2.1)
      ∧ (tryModels net msgs p models st).1.lastResponseText
          = mergeText st.lastResponseText (lastHttp (tryModels net msgs p models st).2.1) := by
  intro models
  induction models with
  | nil => intro st; rw [outer_nil]; exact ⟨rfl, rfl⟩
  | cons m rest ih =>
      intro st
      cases hx : (tryModelEndpoints net msgs p m endpointsList st).2.2 with
      | foundOk r =>
          rw [outer_cons_found net msgs p m rest st r hx]
          exact inner_state_track net msgs p m endpointsList st
      | modelUnsupported =>
          rw [outer_cons_go net msgs p m rest st (by rw [hx]; rfl)]
          rw [lastHttp_append]
          constructor
          · rw [(ih _).1, (inner_state_track net msgs p m endpointsList st).1]
            cases lastHttp (tryModels net msgs p rest _).2.1 <;>
              cases lastHttp (tryModelEndpoints net msgs p m endpointsList st).2.1 <;> rfl
          · rw [(ih _).2, (inner_state_track net msgs p m endpointsList st).2]
            cases lastHttp (tryModels net msgs p rest _).2.1 <;>
              cases lastHttp (tryModelEndpoints net msgs p m endpointsList st).2.1 <;> rfl
      | exhausted =>
          rw [outer_cons_go net msgs p m rest st (by rw [hx]; rfl)]
          rw [lastHttp_append]
          constructor
          · rw [(ih _).1, (inner_state_track net msgs p m endpointsList st).1]
            cases lastHttp (tryModels net msgs p rest _).2.1 <;>
              cases lastHttp (tryModelEndpoints net msgs p m endpointsList st).2.1 <;> rfl
          · rw [(ih _).2, (inner_state_track net msgs p m endpointsList st).2]
            cases lastHttp (tryModels net msgs p rest _).2.1 <;>
              cases lastHttp (tryModelEndpoints net msgs p m endpointsList st).2.1 <;> rfl

/-! Agreement between the implementation's loop and the spec-side
candidate order. -/

theorem classify_agree (r : HttpResp) :
    specClassify (FetchOutcome.resp r) =
      (match classifyCandidate r with
       | CandAction.stopAll => SpecStep.stopAll
       | CandAction.nextModel => SpecStep.skipModel
       | CandAction.next _ => SpecStep.keepGoing) := by
  unfold specClassify classifyCandidate
  by_cases h1 : isOkStatus r = true
  · simp [h1]
  · have hb : isOkStatus r = false := by simpa using h1
    simp only [hb, Bool.false_eq_true, if_false]
    by_cases h2 : r.status = 503
    · have h3 : (decide (r.status = 400) && isModelNotSupported r) = false := by
        simp [h2]
      simp [h2, h3]
    · by_cases h4 : r.status = 410
      · have h3 : (decide (r.status = 400) && isModelNotSupported r) = false := by
          simp [h4]
        simp [h2, h4, h3]
      · by_cases h5 : r.status = 404
        · have h3 : (decide (r.status = 400) && isModelNotSupported r) = false := by
            simp [h5]
          simp [h2, h4, h5, h3]
        · by_cases h6 : (decide (r.status = 400) && isModelNotSupported r) = true
          · simp [h2, h4, h5, h6]
          · have h7 : (decide (r.status = 400) && isModelNotSupported r) = false := by
              simpa using h6
            simp [h2, h4, h5, h7]

theorem inner_spec_agree (net : String → Endpoint → FetchOutcome)
    (msgs : List ChatMessage) (p m : String) :
    ∀ (eps : List Endpoint) (st : LoopState),
      (tryModelEndpoints net msgs p m eps st).2.1.map (fun a => (a.model, a.endpoint))
          = (specScanModel net m eps).1
      ∧ isFound (tryModelEndpoints net msgs p m eps st).2.2 = (specScanModel net m eps).2 := by
  intro eps
  induction eps with
  | nil => intro st; rw [inner_nil]; exact ⟨rfl, rfl⟩
  | cons e rest ih =>
      intro st
      cases hne : net m e with
      | exn msg =>
          rw [inner_cons_exn net msgs p m e rest st msg hne]
          have hs : specClassify (net m e) = SpecStep.keepGoing := by rw [hne]; rfl
          have hspec : specScanModel net m (e :: rest)
              = ((m, e) :: (specScanModel net m rest).1, (specScanModel net m rest).2) := by
            simp only [specScanModel, hs]
          rw [hspec]
          refine ⟨?_, (ih _).2⟩
          simp only [List.map_cons]
          rw [(ih _).1]
          simp [mkAttempt]
      | resp r =>
          rcases hcr : classifyCandidate r with _ | _ | upd
          · rw [inner_cons_stop net msgs p m e rest st r hne hcr]
            have hs : specClassify (net m e) = SpecStep.stopAll := by
              rw [hne, classify_agree, hcr]
            have hspec : specScanModel net m (e :: rest) = ([(m, e)], true) := by
              simp only [specScanModel, hs]
            rw [hspec]
            exact ⟨rfl, rfl⟩
          · rw [inner_cons_skip net msgs p m e rest st r hne hcr]
            have hs : specClassify (net m e) = SpecStep.skipModel := by
              rw [hne, classify_agree, hcr]
            have hspec : specScanModel net m (e :: rest) = ([(m, e)], false) := by
              simp only [specScanModel, hs]
            rw [hspec]
            exact ⟨rfl, rfl⟩
          · rw [inner_cons_next net msgs p m e rest st r upd hne hcr]
            have hs : specClassify (net m e) = SpecStep.keepGoing := by
              rw [hne, classify_agree, hcr]
            have hspec : specScanModel net m (e :: rest)
                = ((m, e) :: (specScanModel net m rest).1, (specScanModel net m rest).2) := by
              simp only [specScanModel, hs]
            rw [hspec]
            refine ⟨?_, (ih _).2⟩
            simp only [List.map_cons]
            rw [(ih _).1]
            simp [mkAttempt]

theorem outer_spec_agree (net : String → Endpoint → FetchOutcome)
    (msgs : List ChatMessage) (p : String) :
    ∀ (models : List String) (st : LoopState),
      (tryModels net msgs p models st).2.1.map (fun a => (a.model, a.endpoint))
        = specCandidateOrder net models endpointsList := by
  intro models
  induction models with
  | nil => intro st; rw [outer_nil]; rfl
  | cons m rest ih =>
      intro st
      have hi := inner_spec_agree net msgs p m endpointsList st
      cases hx : (tryModelEndpoints net msgs p m endpointsList st).2.2 with
      | foundOk r =>
          rw [outer_cons_found net msgs p m rest st r hx]
          have h2 : (specScanModel net m endpointsList).2 = true := by
            rw [← hi.2, hx]; rfl
          have hspec : specCandidateOrder net (m :: rest) endpointsList
              = (specScanModel net m endpointsList).1 := by
            simp only [specCandidateOrder, h2, if_true]
          rw [hspec, ← hi.1]
      | modelUnsupported =>
          rw [outer_cons_go net msgs p m rest st (by rw [hx]; rfl)]
          have h2 : (specScanModel net m endpointsList).2 = false := by
            rw [← hi.2, hx]; rfl
          have hspec : specCandidateOrder net (m :: rest) endpointsList
              = (specScanModel net m endpointsList).1
                ++ specCandidateOrder net rest endpointsList := by
            simp only [specCandidateOrder, h2, Bool.false_eq_true, if_false]
          rw [hspec, List.map_append, hi.1, ih _]
      | exhausted =>
          rw [outer_cons_go net msgs p m rest st (by rw [hx]; rfl)]
          have h2 : (specScanModel net m endpointsList).2 = false := by
            rw [← hi.2, hx]; rfl
          have hspec : specCandidateOrder net (m :: rest) endpointsList
              = (specScanModel net m endpointsList).1
                ++ specCandidateOrder net rest endpointsList := by
            simp only [specCandidateOrder, h2, Bool.false_eq_true, if_false]
          rw [hspec, List.map_append, hi.1, ih _]

/-! Case equations for `callHuggingFace`. -/

theorem callHF_noKey (net : String → Endpoint → FetchOutcome) (hfModel : String)
    (msgs : List ChatMessage) :
    callHuggingFace false net hfModel msgs =
      ({ success := false, message := none,
         error := some (Json.str "HF_API_KEY отсутствует"),
         errorType := some ErrorType.provider_unavailable }, []) := rfl

theorem callHF_found (net : String → Endpoint → FetchOutcome) (hfModel : String)
    (msgs : List ChatMessage) (r : HttpResp)
    (hc : (tryModels net msgs (buildPrompt msgs) (modelsToTry hfModel) initLoopState).2.2
      = some r) :
    callHuggingFace true net hfModel msgs =
      (processOk r,
       (tryModels net msgs (buildPrompt msgs) (modelsToTry hfModel) initLoopState).2.1) := by
  unfold callHuggingFace
  rw [if_neg (by simp)]
  simp only [hc]

theorem callHF_exhausted_resp (net : String → Endpoint → FetchOutcome) (hfModel : String)
    (msgs : List ChatMessage) (r : HttpResp)
    (hc : (tryModels net msgs (buildPrompt msgs) (modelsToTry hfModel) initLoopState).2.2
      = none)
    (hr : (tryModels net msgs (buildPrompt msgs) (modelsToTry hfModel) initLoopState).1.response
      = some r) :
    callHuggingFace true net hfModel msgs =
      (classifyFailure
        (tryModels net msgs (buildPrompt msgs) (modelsToTry hfModel) initLoopState).1.lastResponseText r,
       (tryModels net msgs (buildPrompt msgs) (modelsToTry hfModel) initLoopState).2.1) := by
  unfold callHuggingFace
  rw [if_neg (by simp)]
  simp only [hc, hr]

theorem callHF_exhausted_noResp (net : String → Endpoint → FetchOutcome) (hfModel : String)
    (msgs : List ChatMessage)
    (hc : (tryModels net msgs (buildPrompt msgs) (modelsToTry hfModel) initLoopState).2.2
      = none)
    (hr : (tryModels net msgs (buildPrompt msgs) (modelsToTry hfModel) initLoopState).1.response
      = none) :
    callHuggingFace true net hfModel msgs =
      ({ success := false, message := none,
         error := some (Json.str
           (if (match (tryModels net msgs (buildPrompt msgs) (modelsToTry hfModel)
                   initLoopState).1.lastError with
               | some msg => msg
               | none => "Не удалось подключиться к API") = ""
            then "Неизвестная ошибка Hugging Face"
            else (match (tryModels net msgs (buildPrompt msgs) (modelsToTry hfModel)
                    initLoopState).1.lastError with
                 | some msg => msg
                 | none => "Не удалось подключиться к API"))),
         errorType := some ErrorType.api_error },
       (tryModels net msgs (buildPrompt msgs) (modelsToTry hfModel) initLoopState).2.1) := by
  unfold callHuggingFace
  rw [if_neg (by simp)]
  simp only [hc, hr]

theorem callHF_trace (net : String → Endpoint → FetchOutcome) (hfModel : String)
    (msgs : List ChatMessage) :
    (callHuggingFace true net hfModel msgs).2
      = (tryModels net msgs (buildPrompt msgs) (modelsToTry hfModel) initLoopState).2.1 := by
  cases hc : (tryModels net msgs (buildPrompt msgs) (modelsToTry hfModel) initLoopState).2.2 with
  | some r => rw [callHF_found net hfModel msgs r hc]
  | none =>
      cases hr : (tryModels net msgs (buildPrompt msgs) (modelsToTry hfModel)
          initLoopState).1.response with
      | some r => rw [callHF_exhausted_resp net hfModel msgs r hc hr]
      | none => rw [callHF_exhausted_noResp net hfModel msgs hc hr]

/-! Result shapes: successes carry a trimmed message; no branch emits
`insufficient_balance`. -/

theorem processOk_success (r : HttpResp) (h : (processOk r).success = true) :
    ∃ s, s ≠ "" ∧ (processOk r).message = some (jsTrim s) := by
  obtain ⟨status, statusText, bodyText, bodyJson⟩ := r
  cases bodyJson with
  | none => exact absurd h (by simp [processOk])
  | some data =>
      cases hx : extractGeneratedText data with
      | thrown => exact absurd h (by simp [processOk, hx])
      | notFound => exact absurd h (by simp [processOk, hx, emptyAnswerResult])
      | found v =>
          by_cases ht : jsTruthy v = false
          · exact absurd h (by simp [processOk, hx, ht, emptyAnswerResult])
          · have htv : jsTruthy v = true := by simpa using ht
            cases v with
            | str s =>
                refine ⟨s, ?_, by simp [processOk, hx, htv]⟩
                intro hs
                rw [hs] at htv
                simp [jsTruthy] at htv
            | null => exact absurd h (by simp [processOk, hx, htv])
            | bool b => exact absurd h (by simp [processOk, hx, htv])
            | num n => exact absurd h (by simp [processOk, hx, htv])
            | arr xs => exact absurd h (by simp [processOk, hx, htv])
            | obj fs => exact absurd h (by simp [processOk, hx, htv])

theorem classifyFailure_not_success (t : String) (r : HttpResp) :
    (classifyFailure t r).success = false := by
  unfold classifyFailure
  by_cases h5 : r.status = 503
  · rw [if_pos h5]
  · rw [if_neg h5]

theorem callHF_success_shape (net : String → Endpoint → FetchOutcome) (hfModel : String)
    (msgs : List ChatMessage)
    (h : (callHuggingFace true net hfModel msgs).1.success = true) :
    ∃ s, s ≠ "" ∧ (callHuggingFace true net hfModel msgs).1.message = some (jsTrim s) := by
  cases hc : (tryModels net msgs (buildPrompt msgs) (modelsToTry hfModel) initLoopState).2.2 with
  | some r =>
      rw [callHF_found net hfModel msgs r hc] at h ⊢
      exact processOk_success r h
  | none =>
      cases hr : (tryModels net msgs (buildPrompt msgs) (modelsToTry hfModel)
          initLoopState).1.response with
      | some r =>
          rw [callHF_exhausted_resp net hfModel msgs r hc hr] at h
          rw [classifyFailure_not_success _ r] at h
          exact absurd h (by simp)
      | none =>
          rw [callHF_exhausted_noResp net hfModel msgs hc hr] at h
          exact absurd h (by simp)

theorem processOk_not_ib (r : HttpResp) :
    etNotIB (processOk r).errorType = true := by
  obtain ⟨status, statusText, bodyText, bodyJson⟩ := r
  cases bodyJson with
  | none => rfl
  | some data =>
      cases hx : extractGeneratedText data with
      | thrown => simp [processOk, hx, etNotIB]
      | notFound => simp [processOk, hx, emptyAnswerResult, etNotIB]
      | found v =>
          by_cases ht : jsTruthy v = false
          · simp [processOk, hx, ht, emptyAnswerResult, etNotIB]
          · have htv : jsTruthy v = true := by simpa using ht
            cases v <;> simp [processOk, hx, htv, etNotIB]

theorem classifyFailure_not_ib (t : String) (r : HttpResp) :
    etNotIB (classifyFailure t r).errorType = true := by
  unfold classifyFailure
  by_cases h5 : r.status = 503
  · rw [if_pos h5]; rfl
  · rw [if_neg h5]; rfl

theorem callHF_not_ib (hasKey : Bool) (net : String → Endpoint → FetchOutcome)
    (hfModel : String) (msgs : List ChatMessage) :
    etNotIB (callHuggingFace hasKey net hfModel msgs).1.errorType = true := by
  cases hasKey with
  | false => rfl
  | true =>
      cases hc : (tryModels net msgs (buildPrompt msgs) (modelsToTry hfModel)
          initLoopState).2.2 with
      | some r => rw [callHF_found net hfModel msgs r hc]; exact processOk_not_ib r
      | none =>
          cases hr : (tryModels net msgs (buildPrompt msgs) (modelsToTry hfModel)
              initLoopState).1.response with
          | some r =>
              rw [callHF_exhausted_resp net hfModel msgs r hc hr]
              exact classifyFailure_not_ib _ r
          | none => rw [callHF_exhausted_noResp net hfModel msgs hc hr]; rfl

/-! The history update performed by `getAIResponse` (used for the store
claims). -/

theorem truncate_eq_lastN {α : Type} (xs : List α) :
    (if MAX_HISTORY < xs.length then lastN MAX_HISTORY xs else xs)
      = lastN MAX_HISTORY xs := by
  by_cases h : MAX_HISTORY < xs.length
  · rw [if_pos h]
  · rw [if_neg h, lastN_of_length_le _ _ (by omega)]

theorem getAIResponse_noKey (net : String → Endpoint → FetchOutcome) (hfModel sys : String)
    (store : Store) (uid : Nat) (msg : String) :
    getAIResponse false net hfModel sys store uid msg = (none, store, []) := rfl

theorem getAIResponse_store_rule (hasKey : Bool) (net : String → Endpoint → FetchOutcome)
    (hfModel sys : String) (store : Store) (uid : Nat) (msg : String) :
    (getAIResponse hasKey net hfModel sys store uid msg).2.1
      = historySpecUpdate store uid msg (getAIResponse hasKey net hfModel sys store uid msg).1 := by
  cases hasKey with
  | false => rfl
  | true =>
      unfold getAIResponse
      rw [if_neg (by simp)]
      by_cases h : ((callHuggingFace true net hfModel (builtMessages sys (store uid) msg)).1.success
          && optStrTruthy (callHuggingFace true net hfModel
            (builtMessages sys (store uid) msg)).1.message) = true
      · simp only [h, if_true]
        simp only [historySpecUpdate, h, if_true]
        rw [truncate_eq_lastN]
      · have hb : ((callHuggingFace true net hfModel (builtMessages sys (store uid) msg)).1.success
            && optStrTruthy (callHuggingFace true net hfModel
              (builtMessages sys (store uid) msg)).1.message) = false := by
          simpa using h
        simp only [hb, Bool.false_eq_true, if_false]
        simp only [historySpecUpdate, hb, Bool.false_eq_true, if_false]

theorem getAIResponse_result_trace (net : String → Endpoint → FetchOutcome)
    (hfModel sys : String) (store : Store) (uid : Nat) (msg : String) :
    (getAIResponse true net hfModel sys store uid msg).1
        = some (callHuggingFace true net hfModel (builtMessages sys (store uid) msg)).1
    ∧ (getAIResponse true net hfModel sys store uid msg).2.2
        = (callHuggingFace true net hfModel (builtMessages sys (store uid) msg)).2 := by
  unfold getAIResponse
  rw [if_neg (by simp)]
  by_cases h : ((callHuggingFace true net hfModel (builtMessages sys (store uid) msg)).1.success
      && optStrTruthy (callHuggingFace true net hfModel
        (builtMessages sys (store uid) msg)).1.message) = true
  · simp only [h, if_true]
    exact ⟨trivial, trivial⟩
  · have hb : ((callHuggingFace true net hfModel (builtMessages sys (store uid) msg)).1.success
        && optStrTruthy (callHuggingFace true net hfModel
          (builtMessages sys (store uid) msg)).1.message) = false := by
      simpa using h
    simp only [hb, Bool.false_eq_true, if_false]
    exact ⟨trivial, trivial⟩

/-! Shape of values returned by the extraction: every return site is
truthiness-guarded except the array-of-objects candidate path, whose
nullish fallback can hand back an empty string. -/

/-- The body is an array whose first element is an object. -/
def arrObjHeaded : Json → Bool
  | Json.arr (Json.obj _ :: _) => true
  | _ => false

theorem choiceTextFallback_truthy (choice v : Json)
    (h : choiceTextFallback choice = some (ExtractOut.found v)) : jsTruthy v = true := by
  unfold choiceTextFallback at h
  cases hg : getField choice "text" with
  | none => simp [hg] at h
  | some t =>
      simp only [hg] at h
      by_cases ht : jsTruthy t = true
      · rw [if_pos ht] at h
        obtain rfl : t = v := by simpa using h
        exact ht
      · rw [if_neg ht] at h
        exact absurd h (by simp)

theorem extractFromChoices_truthy (data v : Json)
    (h : extractFromChoicesBlock data = some (ExtractOut.found v)) : jsTruthy v = true := by
  unfold extractFromChoicesBlock at h
  cases hg : getField data "choices" with
  | none => simp [hg] at h
  | some cj =>
      simp only [hg] at h
      cases cj with
      | arr elems =>
          cases elems with
          | nil => simp at h
          | cons choice _ =>
              simp only at h
              by_cases hn : isNull choice = true
              · rw [if_pos hn] at h
                exact absurd h (by simp)
              · rw [if_neg hn] at h
                cases hm : getField choice "message" with
                | none =>
                    simp only [hm] at h
                    exact choiceTextFallback_truthy choice v h
                | some mj =>
                    simp only [hm] at h
                    by_cases hmt : jsTruthy mj = true
                    · rw [if_pos hmt] at h
                      cases hct : getField mj "content" with
                      | none =>
                          simp only [hct] at h
                          exact choiceTextFallback_truthy choice v h
                      | some c =>
                          simp only [hct] at h
                          by_cases hc : jsTruthy c = true
                          · rw [if_pos hc] at h
                            obtain rfl : c = v := by simpa using h
                            exact hc
                          · rw [if_neg hc] at h
                            exact choiceTextFallback_truthy choice v h
                    · rw [if_neg hmt] at h
                      exact choiceTextFallback_truthy choice v h
      | null => simp at h
      | bool b => simp at h
      | num n => simp at h
      | str s => simp at h
      | obj fs => simp at h

theorem extractObjField_truthy (data : Json) (name : String) (v : Json)
    (h : extractObjField data name = some (ExtractOut.found v)) : jsTruthy v = true := by
  unfold extractObjField at h
  cases hg : getField data name with
  | none => simp [hg] at h
  | some w =>
      simp only [hg] at h
      by_cases hw : jsTruthy w = true
      · rw [if_pos hw] at h
        obtain rfl : w = v := by simpa using h
        exact hw
      · rw [if_neg hw] at h
        exact absurd h (by simp)

theorem extractFromArr_shape (elems : List Json) (v : Json)
    (h : extractFromArr elems = ExtractOut.found v) :
    jsTruthy v = true ∨ (v = Json.str "" ∧ ∃ fs rest, elems = Json.obj fs :: rest) := by
  cases elems with
  | nil => exact absurd h (by simp [extractFromArr])
  | cons first rest =>
      simp only [extractFromArr] at h
      by_cases hf : jsTruthy first = false
      · rw [if_pos hf] at h
        exact absurd h (by simp)
      · rw [if_neg hf] at h
        have hft : jsTruthy first = true := by simpa using hf
        cases first with
        | str s =>
            obtain rfl : Json.str s = v := by simpa using h
            exact Or.inl hft
        | obj fs =>
            rcases hc : coalesce (getField (Json.obj fs) "generated_text")
                (coalesce (getField (Json.obj fs) "output_text")
                  (coalesce (getField (Json.obj fs) "text")
                    (getField (Json.obj fs) "content"))) with _ | w
            · simp [hc] at h
            · simp only [hc] at h
              cases w with
              | str s =>
                  obtain rfl : Json.str s = v := by simpa using h
                  by_cases hs : s = ""
                  · exact Or.inr ⟨by rw [hs], fs, rest, rfl⟩
                  · exact Or.inl (by simp [jsTruthy, hs])
              | null => simp at h
              | bool b => simp at h
              | num n => simp at h
              | arr l => simp at h
              | obj l => simp at h
        | arr l =>
            exact absurd h (by simp [getField, coalesce, nullish])
        | null => simp [jsTruthy] at hft
        | bool b => exact absurd h (by simp)
        | num n => exact absurd h (by simp)

theorem extract_found_shape (data v : Json)
    (h : extractGeneratedText data = ExtractOut.found v) :
    jsTruthy v = true ∨ (v = Json.str "" ∧ arrObjHeaded data = true) := by
  unfold extractGeneratedText at h
  by_cases hd : jsTruthy data = false
  · rw [if_pos hd] at h
    exact absurd h (by simp)
  · rw [if_neg hd] at h
    have hdt : jsTruthy data = true := by simpa using hd
    cases h1 : extractFromChoicesBlock data with
    | some r =>
        simp only [h1] at h
        subst h
        exact Or.inl (extractFromChoices_truthy data v h1)
    | none =>
        simp only [h1] at h
        cases h2 : extractObjField data "generated_text" with
        | some r =>
            simp only [h2] at h
            subst h
            exact Or.inl (extractObjField_truthy data "generated_text" v h2)
        | none =>
            simp only [h2] at h
            cases h3 : extractObjField data "output_text" with
            | some r =>
                simp only [h3] at h
                subst h
                exact Or.inl (extractObjField_truthy data "output_text" v h3)
            | none =>
                simp only [h3] at h
                cases h4 : extractObjField data "text" with
                | some r =>
                    simp only [h4] at h
                    subst h
                    exact Or.inl (extractObjField_truthy data "text" v h4)
                | none =>
                    simp only [h4] at h
                    cases data with
                    | arr elems =>
                        rcases extractFromArr_shape elems v h with ht | ⟨hv, fs, rest, hel⟩
                        · exact Or.inl ht
                        · exact Or.inr ⟨hv, by rw [hel]; rfl⟩
                    | str s =>
                        obtain rfl : Json.str s = v := by simpa using h
                        exact Or.inl hdt
                    | null => exact absurd h (by simp)
                    | bool b => exact absurd h (by simp)
                    | num n => exact absurd h (by simp)
                    | obj fs => exact absurd h (by simp)

/-! The sliding-window invariant: the stored history is always the
`lastN MAX_HISTORY` of the untruncated log. -/

theorem step_inv (hasKey : Bool) (c : CallSpec) (store log : Store)
    (hinv : ∀ u, store u = lastN MAX_HISTORY (log u)) :
    ∀ u, (getAIResponse hasKey c.net c.hfModel c.sysContent store c.userId c.userMessage).2.1 u
        = lastN MAX_HISTORY (logStep log c
            (getAIResponse hasKey c.net c.hfModel c.sysContent store c.userId c.userMessage).1 u) := by
  intro u
  rw [getAIResponse_store_rule]
  cases hres : (getAIResponse hasKey c.net c.hfModel c.sysContent store c.userId c.userMessage).1 with
  | none => simp only [historySpecUpdate, logStep]; exact hinv u
  | some r =>
      by_cases hcond : (r.success && optStrTruthy r.message) = true
      · simp only [historySpecUpdate, logStep, hcond, if_true]
        by_cases hu : u = c.userId
        · subst hu
          simp only [updateStore, if_pos rfl, if_true]
          rw [hinv c.userId, lastN_append_lastN]
        · simp only [updateStore, if_neg hu]
          exact hinv u
      · have hb : (r.success && optStrTruthy r.message) = false := by simpa using hcond
        simp only [historySpecUpdate, logStep, hb, Bool.false_eq_true, if_false]
        exact hinv u

theorem runCalls_inv (hasKey : Bool) :
    ∀ (calls : List CallSpec) (store log : Store),
      (∀ u, store u = lastN MAX_HISTORY (log u)) →
      ∀ u, (runCallsWithLog hasKey calls (store, log)).1 u
             = lastN MAX_HISTORY ((runCallsWithLog hasKey calls (store, log)).2 u) := by
  intro calls
  induction calls with
  | nil => intro store log hinv u; exact hinv u
  | cons c rest ih =>
      intro store log hinv u
      exact ih _ _ (step_inv hasKey c store log hinv) u

/-! The code's `errorData?.error || errorData?.message ||
errorData?.error?.message || text || generic` chain equals the
spec-side three-step chain: whenever the structured error field is
present but falsy it is a primitive, so its `message` access yields
`undefined`. -/

theorem errChain_eq (errorData : Option Json) (t : String) (d : Json) :
    firstTruthy [errorData.bind (fun j => getField j "error"),
                 errorData.bind (fun j => getField j "message"),
                 (errorData.bind (fun j => getField j "error")).bind
                   (fun j => getField j "message"),
                 some (Json.str t)] d
    = firstTruthy [errorData.bind (fun j => getField j "error"),
                   errorData.bind (fun j => getField j "message"),
                   some (Json.str t)] d := by
  cases he : errorData.bind (fun j => getField j "error") with
  | none =>
      cases hm : errorData.bind (fun j => getField j "message") with
      | none => rfl
      | some w => rfl
  | some v =>
      by_cases hv : jsTruthy v = true
      · simp only [firstTruthy, hv, if_true]
      · have hvf : jsTruthy v = false := by simpa using hv
        have hmsg : getField v "message" = none := by
          cases v with
          | null => rfl
          | bool b => rfl
          | num n => rfl
          | str s => rfl
          | arr l => simp [jsTruthy] at hvf
          | obj l => simp [jsTruthy] at hvf
        simp only [firstTruthy, hvf, Bool.false_eq_true, if_false, Option.some_bind, hmsg]

theorem classifyFailure_spec (r : HttpResp) :
    classifyFailure r.bodyText r = specFailure r := by
  by_cases h5 : r.status = 503
  · simp only [classifyFailure, specFailure, h5, if_pos]
  · simp only [classifyFailure, specFailure, if_neg h5]
    have h := errChain_eq r.bodyJson r.bodyText
      (Json.str ("Ошибка Hugging Face API (" ++ toString r.status ++ " "
        ++ r.statusText ++ ")"))
    rw [h]

/-- From error-type coverage to the claim's Boolean. -/
theorem ib_of_etNotIB (r : AIResponseResult) (h : etNotIB r.errorType = true) :
    isInsufficientBalance (some r) = false := by
  cases het : r.errorType with
  | none => simp [isInsufficientBalance, het]
  | some et =>
      cases et with
      | insufficient_balance =>
          rw [het] at h
          exact absurd h (by simp [etNotIB])
      | api_error => simp [isInsufficientBalance, het]
      | unknown => simp [isInsufficientBalance, het]
      | provider_unavailable => simp [isInsufficientBalance, het]

/-! Concrete network scenarios used by the witnesses and
counterexamples. -/

/-- A 2xx response whose body is the JSON string `" "`. -/
def wsResp : HttpResp :=
  { status := 200, statusText := "OK", bodyText := "\x22 \x22",
    bodyJson := some (Json.str " ") }

/-- Every candidate answers 2xx with the whitespace-only string body. -/
def wsNet : String → Endpoint → FetchOutcome := fun _ _ => FetchOutcome.resp wsResp

/-- A 503 warming response. -/
def warm503Resp : HttpResp :=
  { status := 503, statusText := "Service Unavailable", bodyText := "", bodyJson := none }

/-- A 404 response. -/
def nf404Resp : HttpResp :=
  { status := 404, statusText := "Not Found", bodyText := "", bodyJson := none }

/-- A valid chat-completion body with content `"Hello!"`. -/
def chatOkBody : Json :=
  Json.obj [("choices", Json.arr [Json.obj [("message",
    Json.obj [("content", Json.str "Hello!")])]])]

/-- A 2xx response carrying `chatOkBody`. -/
def chatOkResp : HttpResp :=
  { status := 200, statusText := "OK", bodyText := "chat", bodyJson := some chatOkBody }

/-- Every candidate answers 2xx with the valid chat completion. -/
def chatNet : String → Endpoint → FetchOutcome := fun _ _ => FetchOutcome.resp chatOkResp

/-- Candidate 1 warms up (503), candidate 2 is missing (404),
candidate 3 answers 2xx with a valid chat-completion body. -/
def seqNet : String → Endpoint → FetchOutcome := fun _ e =>
  match e with
  | Endpoint.routerV1 => FetchOutcome.resp warm503Resp
  | Endpoint.routerV2 => FetchOutcome.resp nf404Resp
  | Endpoint.routerV3 => FetchOutcome.resp chatOkResp

/-- Every candidate answers 503. -/
def net503 : String → Endpoint → FetchOutcome := fun _ _ => FetchOutcome.resp warm503Resp

/-- The two candidates `seqNet` fails before succeeding. -/
def seqPre : List Attempt :=
  [mkAttempt seqNet [] (buildPrompt []) "A" Endpoint.routerV1,
   mkAttempt seqNet [] (buildPrompt []) "A" Endpoint.routerV2]

/-- The succeeding third candidate of `seqNet`. -/
def seqAtt : Attempt := mkAttempt seqNet [] (buildPrompt []) "A" Endpoint.routerV3

/-- The single attempt a `wsNet` call issues. -/
def wsAttempt : Attempt :=
  mkAttempt wsNet (builtMessages "sys" [] "hi") (buildPrompt (builtMessages "sys" [] "hi"))
    "m" Endpoint.routerV1

/-- The success result carrying `"Hello!"`. -/
def helloResult : AIResponseResult :=
  { success := true, message := some "Hello!", error := none, errorType := none }

/-- A 2xx response whose body is the empty JSON object. -/
def emptyObjResp : HttpResp :=
  { status := 200, statusText := "OK", bodyText := "\x7b\x7d", bodyJson := some (Json.obj []) }

/-! The claims. -/

/-- Claim C1: for every userId and message, if no credential
(`HF_API_KEY`) is configured, `getAIResponse` returns exactly `null`,
issues zero network calls, and leaves every user's conversation history
unchanged. -/
theorem getAIResponse_disabled (net : String → Endpoint → FetchOutcome)
    (hfModel sys : String) (store : Store) (uid : Nat) (msg : String) :
    getAIResponse false net hfModel sys store uid msg = (none, store, []) := rfl

/-- Claim C2: after any sequence of `getAIResponse` calls starting from
the empty store, every user's stored history has length at most
`MAX_HISTORY` and equals the most recent turns of that user's append
log, in original order (FIFO eviction). -/
theorem history_bounded_fifo (hasKey : Bool) (calls : List CallSpec) (u : Nat) :
    ((runCallsWithLog hasKey calls (fun _ => [], fun _ => [])).1 u).length ≤ MAX_HISTORY
    ∧ (runCallsWithLog hasKey calls (fun _ => [], fun _ => [])).1 u
        = lastN MAX_HISTORY ((runCallsWithLog hasKey calls (fun _ => [], fun _ => [])).2 u) := by
  have h := runCalls_inv hasKey calls (fun _ => []) (fun _ => []) (fun _ => rfl) u
  exact ⟨by rw [h]; exact lastN_length_le _ _, h⟩

/-- Claim C3 counterexample: a 2xx body that is the string `" "` gives a
`success: true` result whose trimmed message is empty, and the call
leaves the user's history untouched although it returned success — so
"on success the pair is appended" fails as stated. -/
theorem success_without_append_cex :
    (getAIResponse true wsNet "m" "sys" (fun _ => []) 7 "hi").1
        = some { success := true, message := some "", error := none, errorType := none }
    ∧ (getAIResponse true wsNet "m" "sys" (fun _ => []) 7 "hi").2.1 7 = [] :=
  ⟨rfl, rfl⟩

/-- Claim C3 (amended): the store after a call equals the spec-side
update rule — `null` results, failures, and successes with an empty
message leave every history unchanged; a success with a non-empty
message appends the user and assistant turns and keeps the most recent
`MAX_HISTORY` of them. -/
theorem history_update_rule (hasKey : Bool) (net : String → Endpoint → FetchOutcome)
    (hfModel sys : String) (store : Store) (uid : Nat) (msg : String) :
    (getAIResponse hasKey net hfModel sys store uid msg).2.1
      = historySpecUpdate store uid msg (getAIResponse hasKey net hfModel sys store uid msg).1 :=
  getAIResponse_store_rule hasKey net hfModel sys store uid msg

/-- Claim C4 counterexample: for the 2xx body `" "` (a bare whitespace
string) the result is `success: true` with `message = ""` — an empty
message, refuting the guaranteed non-emptiness. -/
theorem success_empty_message_cex :
    (getAIResponse true wsNet "m" "sys" (fun _ => []) 7 "hi").1
        = some { success := true, message := some "", error := none, errorType := none } := rfl

/-- Claim C4 (amended): every `success: true` result of `getAIResponse`
carries a message with no leading or trailing whitespace; it can be the
empty string when the extracted text was whitespace-only. -/
theorem success_message_trimmed (hasKey : Bool) (net : String → Endpoint → FetchOutcome)
    (hfModel sys : String) (store : Store) (uid : Nat) (msg : String) (r : AIResponseResult)
    (hres : (getAIResponse hasKey net hfModel sys store uid msg).1 = some r)
    (hs : r.success = true) :
    noEdgeWsOpt r.message = true := by
  cases hasKey with
  | false => rw [getAIResponse_noKey] at hres; exact absurd hres (by simp)
  | true =>
      rw [(getAIResponse_result_trace net hfModel sys store uid msg).1] at hres
      have hr : (callHuggingFace true net hfModel (builtMessages sys (store uid) msg)).1 = r := by
        simpa using hres
      obtain ⟨s, _, hmsg⟩ := callHF_success_shape net hfModel
        (builtMessages sys (store uid) msg) (by rw [hr]; exact hs)
      rw [← hr, hmsg]
      exact noEdgeWs_jsTrim s

/-- Witness for the amended Claim C4 at a concrete successful call. -/
theorem success_message_trimmed_witness :
    noEdgeWsOpt helloResult.message = true :=
  success_message_trimmed true chatNet "m" "sys" (fun _ => []) 7 "hi" helloResult rfl rfl

/-- Claim C5: every request the traversal issues carries its endpoint's
URL and a payload built from exactly
`[system] ++ storedHistory ++ [new user turn]`; for an empty history the
built message list is exactly the two-element `[system, user]`. -/
theorem request_payload_from_history (net : String → Endpoint → FetchOutcome)
    (hfModel sys : String) (store : Store) (uid : Nat) (msg : String) (a : Attempt)
    (ha : a ∈ (getAIResponse true net hfModel sys store uid msg).2.2) :
    a.url = endpointUrl a.endpoint a.model
    ∧ a.body = endpointBody a.endpoint a.model (builtMessages sys (store uid) msg)
        (buildPrompt (builtMessages sys (store uid) msg))
    ∧ builtMessages sys [] msg
        = [{ role := Role.system, content := sys }, { role := Role.user, content := msg }] := by
  rw [(getAIResponse_result_trace net hfModel sys store uid msg).2, callHF_trace] at ha
  have h := outer_atts_shape net (builtMessages sys (store uid) msg)
    (buildPrompt (builtMessages sys (store uid) msg)) (modelsToTry hfModel) initLoopState a ha
  exact ⟨h.1, h.2.1, rfl⟩

/-- Witness for Claim C5 at a concrete call with one attempt. -/
theorem request_payload_from_history_witness :
    wsAttempt.url = endpointUrl wsAttempt.endpoint wsAttempt.model
    ∧ wsAttempt.body = endpointBody wsAttempt.endpoint wsAttempt.model
        (builtMessages "sys" [] "hi") (buildPrompt (builtMessages "sys" [] "hi"))
    ∧ builtMessages "sys" [] "hi"
        = [{ role := Role.system, content := "sys" }, { role := Role.user, content := "hi" }] :=
  request_payload_from_history wsNet "m" "sys" (fun _ => []) 7 "hi" wsAttempt
    (List.Mem.head _)

/-- Claim C6: the first candidate whose request yields a 2xx response
stops the whole matrix traversal — it is the last issued request, and
the overall result is the 2xx-processing of that response. -/
theorem first_success_stops (net : String → Endpoint → FetchOutcome)
    (hfModel : String) (msgs : List ChatMessage)
    (pre : List Attempt) (a : Attempt) (post : List Attempt) (r : HttpResp)
    (htrace : (callHuggingFace true net hfModel msgs).2 = pre ++ a :: post)
    (hout : a.outcome = FetchOutcome.resp r)
    (hok : 200 ≤ r.status ∧ r.status < 300) :
    post = [] ∧ (callHuggingFace true net hfModel msgs).1 = processOk r := by
  have hokb : isOkStatus r = true := by
    unfold isOkStatus
    rw [decide_eq_true hok.1, decide_eq_true hok.2]
    rfl
  have hA : isOkAttempt a = true := by simp [isOkAttempt, hout, hokb]
  rw [callHF_trace] at htrace
  cases hc : (tryModels net msgs (buildPrompt msgs) (modelsToTry hfModel) initLoopState).2.2 with
  | none =>
      have hmem : a ∈ (tryModels net msgs (buildPrompt msgs) (modelsToTry hfModel)
          initLoopState).2.1 := by
        rw [htrace]; exact List.mem_append_right _ (List.mem_cons_self _ _)
      have hfalse := outer_not_found net msgs (buildPrompt msgs) (modelsToTry hfModel)
        initLoopState hc a hmem
      rw [hA] at hfalse
      exact absurd hfalse (by simp)
  | some r0 =>
      obtain ⟨front, last, heq, hfront, hlout, _⟩ := outer_found_split net msgs
        (buildPrompt msgs) (modelsToTry hfModel) initLoopState r0 hc
      rw [heq] at htrace
      rcases split_at_last pre front last a post htrace with hmem | ⟨haeq, hpost, _⟩
      · have hfalse := hfront a hmem
        rw [hA] at hfalse
        exact absurd hfalse (by simp)
      · subst haeq
        have hr : r0 = r := by
          have h2 := hlout.symm.trans hout
          simpa using h2
        subst hr
        refine ⟨hpost, ?_⟩
        have hres := congrArg Prod.fst (callHF_found net hfModel msgs r0 hc)
        simpa using hres

/-- Witness for Claim C6: with candidate 1 giving 503, candidate 2
giving 404 and candidate 3 giving 2xx with a valid chat body, nothing
follows the third attempt and the result is its processing (a success
with the extracted text). -/
theorem first_success_stops_witness :
    ([] : List Attempt) = []
    ∧ (callHuggingFace true seqNet "A" []).1 = processOk chatOkResp :=
  first_success_stops seqNet "A" [] seqPre seqAtt [] chatOkResp rfl rfl (by decide)

/-- Claim C7: the traversal is model-major — each model's endpoint
formats in order before the next model — except that a 400
`model_not_supported` answer skips the model's remaining formats; the
issued candidate sequence equals the spec-side order exactly. -/
theorem traversal_order_spec (net : String → Endpoint → FetchOutcome)
    (hfModel : String) (msgs : List ChatMessage) :
    (callHuggingFace true net hfModel msgs).2.map (fun a => (a.model, a.endpoint))
      = specCandidateOrder net (modelsToTry hfModel) endpointsList := by
  rw [callHF_trace]
  exact outer_spec_agree net msgs (buildPrompt msgs) (modelsToTry hfModel) initLoopState

/-- Claim C8: when the matrix is exhausted without a 2xx, the result is
classified from the most recent HTTP response observed: 503 gives
`provider_unavailable` with the warming message, anything else gives
`api_error` with the message drawn from the structured error field, the
structured message field, the raw body text, or the generic string. -/
theorem exhausted_last_response_rule (net : String → Endpoint → FetchOutcome)
    (hfModel : String) (msgs : List ChatMessage) (r : HttpResp)
    (hnoOk : ∀ b ∈ (callHuggingFace true net hfModel msgs).2, isOkAttempt b = false)
    (hlast : lastHttp (callHuggingFace true net hfModel msgs).2 = some r) :
    (callHuggingFace true net hfModel msgs).1 = specFailure r := by
  rw [callHF_trace] at hnoOk hlast
  cases hc : (tryModels net msgs (buildPrompt msgs) (modelsToTry hfModel) initLoopState).2.2 with
  | some r0 =>
      obtain ⟨front, last, heq, _, hlout, hlok⟩ := outer_found_split net msgs
        (buildPrompt msgs) (modelsToTry hfModel) initLoopState r0 hc
      have hmem : last ∈ (tryModels net msgs (buildPrompt msgs) (modelsToTry hfModel)
          initLoopState).2.1 := by
        rw [heq]; exact List.mem_append_right _ (List.mem_cons_self _ _)
      have hfalse := hnoOk last hmem
      have htrue : isOkAttempt last = true := by simp [isOkAttempt, hlout, hlok]
      rw [htrue] at hfalse
      exact absurd hfalse (by simp)
  | none =>
      have htrack := outer_state_track net msgs (buildPrompt msgs) (modelsToTry hfModel)
        initLoopState
      have hr : (tryModels net msgs (buildPrompt msgs) (modelsToTry hfModel)
          initLoopState).1.response = some r := by
        rw [htrack.1, hlast]; rfl
      have ht : (tryModels net msgs (buildPrompt msgs) (modelsToTry hfModel)
          initLoopState).1.lastResponseText = r.bodyText := by
        rw [htrack.2, hlast]; rfl
      have hres := congrArg Prod.fst (callHF_exhausted_resp net hfModel msgs r hc hr)
      simp only at hres
      rw [hres, ht]
      exact classifyFailure_spec r

/-- Witness for Claim C8: all candidates answer 503, and the result is
the `provider_unavailable` warming failure. -/
theorem exhausted_last_response_rule_witness :
    (callHuggingFace true net503 "A" []).1 = specFailure warm503Resp := by
  refine exhausted_last_response_rule net503 "A" [] warm503Resp ?_ ?_
  · intro b hb
    rw [callHF_trace] at hb
    have h := outer_atts_shape net503 [] (buildPrompt []) (modelsToTry "A") initLoopState b hb
    have hbo : b.outcome = FetchOutcome.resp warm503Resp := h.2.2
    have h2 : isOkAttempt b = isOkStatus warm503Resp := by simp [isOkAttempt, hbo]
    rw [h2]
    decide
  · rfl

/-- Claim C9 counterexample: for the 2xx body `[{"generated_text": ""}]`
the extraction returns an empty string (neither a non-empty string nor
the null "not found" answer), because the array-candidate path uses
nullish coalescing rather than truthiness. -/
theorem extract_empty_string_cex :
    extractGeneratedText (Json.arr [Json.obj [("generated_text", Json.str "")]])
      = ExtractOut.found (Json.str "") := rfl

/-- Claim C9 (amended): extraction checks the shapes in the specified
order and returns the first match; every matched value is truthy
(non-empty) except on the array-of-objects path, which can return the
empty string; and a 2xx body `{}` with no recognizable field yields the
`api_error` "empty response" failure. -/
theorem extract_first_match_shape (data v : Json)
    (h : extractGeneratedText data = ExtractOut.found v) :
    (jsTruthy v = true ∨ (v = Json.str "" ∧ arrObjHeaded data = true))
    ∧ processOk emptyObjResp = emptyAnswerResult :=
  ⟨extract_found_shape data v h, rfl⟩

/-- Witness for the amended Claim C9 at a concrete extraction. -/
theorem extract_first_match_shape_witness :
    (jsTruthy (Json.str "hi") = true ∨ (Json.str "hi" = Json.str ""
      ∧ arrObjHeaded (Json.str "hi") = true))
    ∧ processOk emptyObjResp = emptyAnswerResult :=
  extract_first_match_shape (Json.str "hi") (Json.str "hi") rfl

/-- Claim C10: for every input and every provider behaviour,
`getAIResponse` never returns a result with
`errorType: insufficient_balance` — no code path produces the category,
although the result type carries it. -/
theorem never_insufficient_balance (hasKey : Bool) (net : String → Endpoint → FetchOutcome)
    (hfModel sys : String) (store : Store) (uid : Nat) (msg : String) :
    isInsufficientBalance (getAIResponse hasKey net hfModel sys store uid msg).1 = false := by
  cases hasKey with
  | false => rfl
  | true =>
      rw [(getAIResponse_result_trace net hfModel sys store uid msg).1]
      exact ib_of_etNotIB _ (callHF_not_ib true net hfModel (builtMessages sys (store uid) msg))

end TgBot
